import Mathlib

/-!
Verification of `src/discord_webhook.py` from `yashikota/zotero-arxiv-daily`.

The module formats arXiv paper records into Discord embed objects and
delivers them over HTTP in batches of at most 10. We embed the module
shallowly: Python strings become `String` (a packed `List Char`, so
`len` is `String.length`), Python slicing `text[:i]` (including negative
indices) becomes `pySlice`, the paper record becomes the structure
`ArxivPaper`, and the network becomes an explicit oracle
`net : Nat -> Outcome` giving the outcome of the i-th POST, so that
`notify_discord` returns the trace of attempted request bodies together
with the warnings it logs.
-/

/-- Python slicing `t[:i]` for an arbitrary integer `i`: a nonnegative
index keeps the first `i` characters; a negative index drops the last
`|i|` characters (clamped at the empty string). -/
def pySlice (t : String) (i : Int) : String :=
  if 0 ≤ i then String.mk (t.data.take i.toNat)
  else String.mk (t.data.take ((t.length : Int) + i).toNat)

/-- Embeds `_truncate` (src/discord_webhook.py lines 17-22):
if `len(text) <= limit` return `text`; else if `limit <= 3` return
`text[:limit]`; else return `text[:limit - 3] + "..."`.  The limit is an
arbitrary Python integer, hence `Int`. -/
def _truncate (text : String) (limit : Int) : String :=
  if (text.length : Int) ≤ limit then text
  else if limit ≤ 3 then pySlice text limit
  else pySlice text (limit - 3) ++ "..."

/-- `a` ends with `b` when some string precedes `b` in `a`. -/
def strEndsWith (a b : String) : Prop := ∃ p : String, a = p ++ b

/-- The first `k` characters of a string, for an integer count `k`
(read as the empty string when `k < 0`): the spec's notion of
"the first L characters of T". -/
def firstChars (t : String) (k : Int) : String := String.mk (t.data.take k.toNat)

/-- A paper record as consumed by the module (the collaborator type
`ArxivPaper` from `paper.py`, read-only here).  Authors are modelled by
their display names, since the source immediately projects each author
object to `getattr(author, "name", str(author))`.  Optional Python
values that the source tests for truthiness (`tldr`, `code_url`) are
`Option String`, with `some ""` also falsy; the score is an optional
number. -/
structure ArxivPaper where
  arxiv_id : String
  arxiv_id_with_version : String
  title : String
  summary : String
  tldr : Option String
  authors : List String
  score : Option ℚ
  pdf_url : String
  code_url : Option String
  affiliations : List String
deriving DecidableEq

/-- One embed field: name, value and inline-display flag.  (Named
`EmbedField` because `Field` already denotes the algebraic class.) -/
structure EmbedField where
  name : String
  value : String
  inline : Bool
deriving DecidableEq

/-- One Discord embed as built by `_paper_to_embed`. -/
structure Embed where
  title : String
  url : String
  description : String
  color : Nat
  fields : List EmbedField
deriving DecidableEq

/-- The payload handed to `_post`: either the empty-state notice
`{content: ...}` or a batch `{embeds: [...]}`. -/
inductive Payload where
  | content (text : String)
  | embeds (es : List Embed)
deriving DecidableEq

/-- The JSON body actually POSTed: `_post` starts from
`{"allowed_mentions": {"parse": []}}` and merges the payload in
(the key sets are disjoint, so the merge is a pairing). -/
structure RequestBody where
  allowedMentionsParse : List String
  payload : Payload
deriving DecidableEq

/-- Outcome of one HTTP POST, as the surrounding `try/except` observes
it: either a response with a status code and body text, or a raised
`requests.RequestException` carrying a message. -/
inductive Outcome where
  | response (status : Nat) (text : String)
  | transportError (msg : String)
deriving DecidableEq

/-- Python `sep.join(xs)`. -/
def joinSep (sep : String) : List String → String
  | [] => ""
  | [x] => x
  | x :: y :: xs => x ++ sep ++ joinSep sep (y :: xs)

/-- Decimal digits, most significant first; the fuel only bounds the
recursion depth and `n + 1` always suffices. -/
def natDigitsAux : Nat → Nat → List Char
  | 0, _ => []
  | fuel + 1, n =>
      if n < 10 then [Nat.digitChar n]
      else natDigitsAux fuel (n / 10) ++ [Nat.digitChar (n % 10)]

/-- Decimal rendering of a natural number. -/
def natDigits (n : Nat) : String :=
  String.mk (natDigitsAux (n + 1) n)

/-- Two-digit zero-padded rendering of `n < 100`. -/
def pad2 (n : Nat) : String :=
  (if n < 10 then "0" else "") ++ natDigits n

/-- Round the fraction `a / b` (with `b > 0`) to the nearest natural
number, ties to even: the rounding Python's `format` applies for
`.2f`. -/
def roundHalfEvenNat (a b : Nat) : Nat :=
  let q := a / b
  let r := a % b
  if 2 * r < b then q
  else if b < 2 * r then q + 1
  else if q % 2 = 0 then q else q + 1

/-- Python `f"{x:.2f}"` on the exact rational value `x`: round
`|x| * 100` half-to-even, print with two decimals and prepend the sign
of `x`.  (The source formats a float score; we model the score as the
exact rational it denotes, and work on the numerator and denominator
directly so the function evaluates by kernel reduction.) -/
def formatF2 (x : ℚ) : String :=
  let n := roundHalfEvenNat (100 * x.num.natAbs) x.den
  (if x.num < 0 then "-" else "") ++ natDigits (n / 100) ++ "." ++ pad2 (n % 100)

/-- Embeds `_author_string` (lines 25-28). -/
def _author_string (p : ArxivPaper) : String :=
  _truncate (if p.authors = [] then "Unknown" else joinSep ", " p.authors) 1024

/-- Embeds `_relevance_string` (lines 31-35). -/
def _relevance_string (p : ArxivPaper) : String :=
  match p.score with
  | none => "Not ranked"
  | some q => formatF2 q ++ "/10"

/-- Embeds `_link_block` (lines 38-46): Abstract, PDF and AlphaXiv
links, plus a Code link when `paper.code_url` is truthy, pipe-joined.
No truncation is applied. -/
def _link_block (p : ArxivPaper) : String :=
  joinSep " | "
    (["[Abstract](https://arxiv.org/abs/" ++ p.arxiv_id ++ ")",
      "[PDF](" ++ p.pdf_url ++ ")",
      "[AlphaXiv](https://www.alphaxiv.org/overview/" ++ p.arxiv_id_with_version ++ ")"] ++
      (match p.code_url with
        | some u => if u = "" then [] else ["[Code](" ++ u ++ ")"]
        | none => []))

/-- Embeds `_affiliations_block` (lines 49-55): `none` when the
affiliation list is empty, else the first 5 entries comma-joined, a
", ..." marker when more than 5 exist, truncated to 1024. -/
def _affiliations_block (p : ArxivPaper) : Option String :=
  if p.affiliations = [] then none
  else some (_truncate
    (joinSep ", " (p.affiliations.take 5) ++
      (if 5 < p.affiliations.length then ", ..." else "")) 1024)

/-- The three always-present fields of an embed, in source order. -/
def baseFields (p : ArxivPaper) : List EmbedField :=
  [⟨"Authors", _author_string p, false⟩,
   ⟨"Relevance", _relevance_string p, true⟩,
   ⟨"Links", _link_block p, true⟩]

/-- Embeds `_paper_to_embed` (lines 58-92).  The description prefers a
truthy `tldr` over the summary; the Affiliations field is appended only
when `_affiliations_block` returns a truthy (non-`None`, non-empty)
string. -/
def _paper_to_embed (p : ArxivPaper) : Embed :=
  let summary := match p.tldr with
    | some t => if t = "" then p.summary else t
    | none => p.summary
  let base : Embed :=
    { title := _truncate p.title 256
      url := "https://arxiv.org/abs/" ++ p.arxiv_id
      description := _truncate summary 2048
      color := 0x5865F2
      fields := baseFields p }
  match _affiliations_block p with
  | none => base
  | some a =>
      if a = "" then base
      else { base with fields := base.fields ++ [⟨"Affiliations", a, false⟩] }

def batchedAux : Nat → List Embed → Nat → List (List Embed)
  | 0, _, _ => []
  | fuel + 1, seq, size =>
      if seq = [] ∨ size = 0 then []
      else seq.take size :: batchedAux fuel (seq.drop size) size

/-- Embeds `_batched` (lines 95-97), realised as the list of chunks the
generator yields, via fuel-bounded recursion (`seq.length` recursion
steps always suffice since each step drops at least one element).  The
source only ever calls it with size 10; a size of 0 (where Python
`range` would raise) is mapped to no chunks to keep the function
total. -/
def _batched (seq : List Embed) (size : Nat) : List (List Embed) :=
  batchedAux seq.length seq size

/-- The warnings `_post` logs for one POST outcome (lines 113-121):
transport failures and HTTP statuses >= 400 each produce one warning,
the latter quoting at most 300 characters of the response body. -/
def warningsOf (o : Outcome) : List String :=
  match o with
  | Outcome.transportError msg => ["Failed to reach Discord webhook: " ++ msg]
  | Outcome.response status text =>
      if 400 ≤ status then
        ["Discord webhook returned " ++ natDigits status ++ ": " ++
          String.mk (text.data.take 300)]
      else []

/-- Runs `_post` on each payload in order, numbering the POSTs so the
network oracle can distinguish them; returns the bodies sent and the
warnings logged.  `_post` catches transport errors and checks the
status itself, so every payload in the list is attempted. -/
def runPosts (payloads : List Payload) (net : Nat → Outcome) (i : Nat) :
    List RequestBody × List String :=
  match payloads with
  | [] => ([], [])
  | p :: rest =>
      let r := runPosts rest net (i + 1)
      (⟨[], p⟩ :: r.1, warningsOf (net i) ++ r.2)

/-- Embeds `notify_discord` (lines 100-131) against a network oracle:
empty URL returns at once; an empty paper list sends the single
empty-state notice; otherwise one POST per batch of at most 10 embeds.
The result is the trace of request bodies and logged warnings. -/
def notify_discord (papers : List ArxivPaper) (webhook_url : String)
    (net : Nat → Outcome) : List RequestBody × List String :=
  if webhook_url = "" then ([], [])
  else if papers = [] then
    runPosts [Payload.content "No new arXiv papers today.\nSee you tomorrow!"] net 0
  else
    runPosts ((_batched (papers.map _paper_to_embed) 10).map Payload.embeds) net 0

/-- The affiliation string the code builds before the truthiness check:
first 5 affiliations comma-joined, a ", ..." marker when more than 5
exist, truncated to 1024 (the `some` payload of `_affiliations_block`). -/
def affValue (p : ArxivPaper) : String :=
  _truncate
    (joinSep ", " (p.affiliations.take 5) ++
      (if 5 < p.affiliations.length then ", ..." else "")) 1024

/-- The documented 0-10 range for a present relevance score
(`q.num <= 10 * q.den` is `q <= 10` over the num/den pair). -/
def scoreInRange (p : ArxivPaper) : Bool :=
  match p.score with
  | none => true
  | some q => decide (0 ≤ q.num) && decide (q.num ≤ 10 * (q.den : Int))

/-- Number of embeds carried by one POSTed body (0 for the
empty-state content notice). -/
def batchSize (b : RequestBody) : Nat :=
  match b.payload with
  | Payload.content _ => 0
  | Payload.embeds es => es.length

/-- A small concrete paper record used to instantiate theorems. -/
def basePaper : ArxivPaper :=
  { arxiv_id := "2401.01234", arxiv_id_with_version := "2401.01234v1",
    title := "Sample title", summary := "A summary.", tldr := none,
    authors := ["Alice"], score := none,
    pdf_url := "https://arxiv.org/pdf/2401.01234",
    code_url := none, affiliations := [] }

/-- A record whose PDF URL is 1100 characters long. -/
def longUrlPaper : ArxivPaper :=
  { basePaper with pdf_url := String.mk (List.replicate 1100 'a') }

/-- A record with a single, empty affiliation string. -/
def singleAffPaper : ArxivPaper := { basePaper with affiliations := [""] }

/-- A record with seven affiliations. -/
def sevenAffPaper : ArxivPaper :=
  { basePaper with affiliations := ["a1", "a2", "a3", "a4", "a5", "a6", "a7"] }

/-- A record with score 7 (in the documented 0-10 range). -/
def scoredPaper : ArxivPaper := { basePaper with score := some (mkRat 7 1) }

/-- A record with score 7.256. -/
def scored726Paper : ArxivPaper := { basePaper with score := some (mkRat 7256 1000) }

/-- A network where every POST succeeds with status 204. -/
def netOk : Nat → Outcome := fun _ => Outcome.response 204 ""

/-- A network where the second POST raises a transport exception and
all others succeed. -/
def netFailSecond : Nat → Outcome :=
  fun i => if i = 1 then Outcome.transportError "boom" else Outcome.response 204 ""

theorem batchedAux_congr (fuel1 : Nat) (fuel2 : Nat) (seq : List Embed) (size : Nat)
    (h1 : seq.length ≤ fuel1) (h2 : seq.length ≤ fuel2) (hs : size ≠ 0) :
    batchedAux fuel1 seq size = batchedAux fuel2 seq size := by
  induction fuel1 generalizing fuel2 seq with
  | zero =>
      have : seq = [] := List.eq_nil_of_length_eq_zero (Nat.le_zero.mp h1)
      subst this
      cases fuel2 <;> simp [batchedAux]
  | succ f ih =>
      cases fuel2 with
      | zero =>
          have : seq = [] := List.eq_nil_of_length_eq_zero (Nat.le_zero.mp h2)
          subst this
          simp [batchedAux]
      | succ f2 =>
          by_cases hseq : seq = []
          · subst hseq; simp [batchedAux]
          · have hpos : 0 < seq.length := List.length_pos.mpr hseq
            have hcond : ¬(seq = [] ∨ size = 0) := by
              push_neg; exact ⟨hseq, hs⟩
            simp only [batchedAux, if_neg hcond]
            have hdrop : (seq.drop size).length = seq.length - size := List.length_drop _ _
            have hs1 : 0 < size := Nat.pos_of_ne_zero hs
            rw [ih f2 (seq.drop size) (by omega) (by omega)]

theorem _batched_nil (size : Nat) : _batched [] size = [] := rfl

theorem _batched_cons (seq : List Embed) (size : Nat) (h1 : seq ≠ []) (h2 : size ≠ 0) :
    _batched seq size = seq.take size :: _batched (seq.drop size) size := by
  cases seq with
  | nil => exact absurd rfl h1
  | cons a as =>
      show batchedAux (as.length + 1) (a :: as) size = _
      have hcond : ¬((a :: as) = [] ∨ size = 0) := by
        push_neg; exact ⟨List.cons_ne_nil a as, h2⟩
      simp only [batchedAux, if_neg hcond]
      unfold _batched
      rw [batchedAux_congr as.length ((a :: as).drop size).length ((a :: as).drop size) size
        (by simp [List.length_drop]; omega) (le_refl _) h2]

theorem _batched_join (seq : List Embed) (size : Nat) (h : size ≠ 0) :
    (_batched seq size).flatten = seq := by
  by_cases hseq : seq = []
  · subst hseq; simp [_batched_nil]
  · rw [_batched_cons seq size hseq h, List.flatten_cons,
      _batched_join (seq.drop size) size h, List.take_append_drop]
termination_by seq.length
decreasing_by
  have : 0 < seq.length := List.length_pos.mpr hseq
  have : 0 < size := Nat.pos_of_ne_zero h
  simp only [List.length_drop]
  omega

theorem _batched_length_ten (seq : List Embed) :
    (_batched seq 10).length = (seq.length + 9) / 10 := by
  by_cases hseq : seq = []
  · subst hseq; simp [_batched_nil]
  · rw [_batched_cons seq 10 hseq (by decide), List.length_cons,
      _batched_length_ten (seq.drop 10)]
    have : 0 < seq.length := List.length_pos.mpr hseq
    simp only [List.length_drop]
    omega
termination_by seq.length
decreasing_by
  have : 0 < seq.length := List.length_pos.mpr hseq
  simp only [List.length_drop]
  omega

theorem _batched_sizes (seq : List Embed) (size : Nat) (h : size ≠ 0) :
    ∀ c ∈ _batched seq size, c.length ≤ size := by
  by_cases hseq : seq = []
  · subst hseq; simp [_batched_nil]
  · rw [_batched_cons seq size hseq h]
    intro c hc
    rcases List.mem_cons.mp hc with rfl | hmem
    · simp only [List.length_take]
      omega
    · exact _batched_sizes (seq.drop size) size h c hmem
termination_by seq.length
decreasing_by
  have : 0 < seq.length := List.length_pos.mpr hseq
  have : 0 < size := Nat.pos_of_ne_zero h
  simp only [List.length_drop]
  omega

theorem _batched_map_length_23 (seq : List Embed) (h : seq.length = 23) :
    (_batched seq 10).map List.length = [10, 10, 3] := by
  have h1 : seq ≠ [] := by
    intro e; rw [e] at h; simp at h
  have hd1 : (seq.drop 10).length = 13 := by simp [List.length_drop, h]
  have h2 : seq.drop 10 ≠ [] := by
    intro e; rw [e] at hd1; simp at hd1
  have hd2 : ((seq.drop 10).drop 10).length = 3 := by
    simp only [List.length_drop]; omega
  have h3 : (seq.drop 10).drop 10 ≠ [] := by
    intro e; rw [e] at hd2; simp at hd2
  have hd3 : (((seq.drop 10).drop 10).drop 10).length = 0 := by
    simp only [List.length_drop]; omega
  have h4 : ((seq.drop 10).drop 10).drop 10 = [] :=
    List.eq_nil_of_length_eq_zero hd3
  rw [_batched_cons seq 10 h1 (by decide),
    _batched_cons (seq.drop 10) 10 h2 (by decide),
    _batched_cons ((seq.drop 10).drop 10) 10 h3 (by decide),
    h4, _batched_nil]
  simp [List.length_take, h, hd1, hd2]

theorem runPosts_fst (ps : List Payload) (net : Nat → Outcome) (i : Nat) :
    (runPosts ps net i).1 = ps.map (fun p => (⟨[], p⟩ : RequestBody)) := by
  induction ps generalizing i with
  | nil => rfl
  | cons p rest ih => simp [runPosts, ih]

theorem runPosts_snd (ps : List Payload) (net : Nat → Outcome) (i : Nat) :
    (runPosts ps net i).2 =
      ((List.range ps.length).map (fun j => warningsOf (net (i + j)))).flatten := by
  induction ps generalizing i with
  | nil => rfl
  | cons p rest ih =>
      simp only [runPosts, List.length_cons, List.range_succ_eq_map, List.map_cons,
        List.flatten_cons, List.map_map, ih (i + 1)]
      congr 1
      congr 1
      apply List.map_congr_left
      intro j _
      simp only [Function.comp_apply]
      have hij : i + 1 + j = i + (j + 1) := by omega
      rw [hij]

theorem notify_discord_empty_url (papers : List ArxivPaper) (net : Nat → Outcome) :
    notify_discord papers "" net = ([], []) := by
  simp [notify_discord]

theorem notify_discord_no_papers (url : String) (net : Nat → Outcome) (h : url ≠ "") :
    notify_discord [] url net =
      runPosts [Payload.content "No new arXiv papers today.\nSee you tomorrow!"] net 0 := by
  simp [notify_discord, h]

theorem notify_discord_batches (papers : List ArxivPaper) (url : String)
    (net : Nat → Outcome) (h : url ≠ "") (hp : papers ≠ []) :
    notify_discord papers url net =
      runPosts ((_batched (papers.map _paper_to_embed) 10).map Payload.embeds) net 0 := by
  simp [notify_discord, h, hp]

theorem string_length_data (s : String) : s.length = s.data.length := rfl

theorem string_data_append (a b : String) : (a ++ b).data = a.data ++ b.data := rfl

theorem string_mk_length (l : List Char) : (String.mk l).length = l.length := rfl

theorem string_length_append (a b : String) : (a ++ b).length = a.length + b.length := by
  rw [string_length_data, string_data_append, List.length_append,
    ← string_length_data, ← string_length_data]

theorem pySlice_nonneg (t : String) (i : Int) (h : 0 ≤ i) :
    pySlice t i = String.mk (t.data.take i.toNat) := by
  simp [pySlice, h]

theorem pySlice_length (t : String) (i : Int) (h : 0 ≤ i) :
    (pySlice t i).length = min i.toNat t.length := by
  rw [pySlice_nonneg t i h, string_mk_length, List.length_take, string_length_data]

theorem truncate_of_le (t : String) (l : Int) (h : (t.length : Int) ≤ l) :
    _truncate t l = t := by
  simp [_truncate, h]

theorem truncate_of_small (t : String) (l : Int) (h1 : l < (t.length : Int)) (h2 : l ≤ 3) :
    _truncate t l = pySlice t l := by
  simp [_truncate, not_le.mpr h1, h2]

theorem truncate_of_cut (t : String) (l : Int) (h1 : l < (t.length : Int)) (h2 : 3 < l) :
    _truncate t l = pySlice t (l - 3) ++ "..." := by
  simp [_truncate, not_le.mpr h1, not_le.mpr h2]

theorem truncate_length_le (t : String) (l : Int) (h : 0 ≤ l) :
    ((_truncate t l).length : Int) ≤ l := by
  rcases le_or_lt (t.length : Int) l with hle | hlt
  · rw [truncate_of_le t l hle]; exact hle
  · rcases le_or_lt l 3 with h3 | h3
    · rw [truncate_of_small t l hlt h3, pySlice_length t l h]
      calc ((min l.toNat t.length : Nat) : Int) ≤ (l.toNat : Int) := by
              exact_mod_cast Nat.min_le_left _ _
        _ = l := Int.toNat_of_nonneg h
    · have h0 : (0 : Int) ≤ l - 3 := by omega
      have hmin : min (l - 3).toNat t.length = (l - 3).toNat := by
        apply min_eq_left; omega
      have hdots : ("..." : String).length = 3 := rfl
      rw [truncate_of_cut t l hlt h3, string_length_append, pySlice_length t _ h0,
        hdots, hmin]
      omega

theorem affiliations_block_eq (p : ArxivPaper) :
    _affiliations_block p =
      if p.affiliations = [] then none else some (affValue p) := rfl

theorem paper_to_embed_title (p : ArxivPaper) :
    (_paper_to_embed p).title = _truncate p.title 256 := by
  cases h : _affiliations_block p with
  | none => simp [_paper_to_embed, h]
  | some a => by_cases ha : a = "" <;> simp [_paper_to_embed, h, ha]

theorem paper_to_embed_description (p : ArxivPaper) :
    (_paper_to_embed p).description =
      _truncate
        (match p.tldr with
          | some t => if t = "" then p.summary else t
          | none => p.summary) 2048 := by
  cases h : _affiliations_block p with
  | none => simp [_paper_to_embed, h]
  | some a => by_cases ha : a = "" <;> simp [_paper_to_embed, h, ha]

theorem paper_to_embed_fields (p : ArxivPaper) :
    (_paper_to_embed p).fields =
      baseFields p ++
        (match _affiliations_block p with
          | none => []
          | some a => if a = "" then [] else [⟨"Affiliations", a, false⟩]) := by
  cases h : _affiliations_block p with
  | none => simp [_paper_to_embed, h]
  | some a => by_cases ha : a = "" <;> simp [_paper_to_embed, h, ha]

theorem truncate_length_le_nat (t : String) (m : Nat) :
    (_truncate t (m : Int)).length ≤ m := by
  have := truncate_length_le t m (Int.ofNat_nonneg m)
  exact_mod_cast this

theorem truncate_1024_eq_empty_iff (t : String) : _truncate t 1024 = "" ↔ t = "" := by
  constructor
  · intro h
    by_cases hle : (t.length : Int) ≤ 1024
    · rwa [truncate_of_le t 1024 hle] at h
    · push_neg at hle
      rw [truncate_of_cut t 1024 hle (by decide)] at h
      have hlen := congrArg String.length h
      rw [string_length_append] at hlen
      have h3 : ("..." : String).length = 3 := rfl
      have h0 : ("" : String).length = 0 := rfl
      omega
  · intro h
    subst h
    rfl

theorem joinSep_comma_ne_empty (x y : String) (xs : List String) :
    joinSep ", " (x :: y :: xs) ≠ "" := by
  intro h
  have hlen := congrArg String.length h
  rw [show joinSep ", " (x :: y :: xs) = x ++ ", " ++ joinSep ", " (y :: xs) from rfl,
    string_length_append, string_length_append] at hlen
  have h2 : (", " : String).length = 2 := rfl
  have h0 : ("" : String).length = 0 := rfl
  omega

theorem natDigitsAux_small (fuel n : Nat) (hf : fuel ≠ 0) (hn : n < 10) :
    natDigitsAux fuel n = [Nat.digitChar n] := by
  cases fuel with
  | zero => exact absurd rfl hf
  | succ f => simp [natDigitsAux, hn]

theorem natDigits_length_le_two (n : Nat) (h : n ≤ 99) : (natDigits n).length ≤ 2 := by
  unfold natDigits
  by_cases h10 : n < 10
  · rw [natDigitsAux_small (n + 1) n (by omega) h10]
    simp [string_mk_length]
  · push_neg at h10
    have hstep : natDigitsAux (n + 1) n =
        natDigitsAux n (n / 10) ++ [Nat.digitChar (n % 10)] := by
      simp [natDigitsAux, Nat.not_lt.mpr h10]
    rw [hstep, natDigitsAux_small n (n / 10) (by omega) (by omega)]
    simp [string_mk_length]

theorem natDigits_length_one (n : Nat) (h : n < 10) : (natDigits n).length = 1 := by
  unfold natDigits
  rw [natDigitsAux_small (n + 1) n (by omega) h]
  simp [string_mk_length]

theorem pad2_length_le_two (n : Nat) (h : n ≤ 99) : (pad2 n).length ≤ 2 := by
  unfold pad2
  by_cases h10 : n < 10
  · rw [if_pos h10, string_length_append, natDigits_length_one n h10]
    decide
  · rw [if_neg h10, string_length_append]
    have := natDigits_length_le_two n h
    have h0 : ("" : String).length = 0 := rfl
    omega

theorem roundHalfEvenNat_le (a b M : Nat) (hb : b ≠ 0) (h : a ≤ M * b) :
    roundHalfEvenNat a b ≤ M + 1 := by
  have hq : a / b ≤ M := by
    calc a / b ≤ M * b / b := Nat.div_le_div_right h
      _ = M := Nat.mul_div_cancel _ (Nat.pos_of_ne_zero hb)
  simp only [roundHalfEvenNat]
  split
  · omega
  · split
    · omega
    · split <;> omega

theorem formatF2_length_le (q : ℚ) (h0 : 0 ≤ q.num) (h10 : q.num ≤ 10 * (q.den : Int)) :
    (formatF2 q).length ≤ 5 := by
  have hb : q.den ≠ 0 := q.den_nz
  have hcast : (q.num.natAbs : Int) = q.num := Int.natAbs_of_nonneg h0
  have hnum : q.num.natAbs ≤ 10 * q.den := by
    rw [← hcast] at h10
    exact_mod_cast h10
  have ha : 100 * q.num.natAbs ≤ 1000 * q.den := by omega
  have hn : roundHalfEvenNat (100 * q.num.natAbs) q.den ≤ 1001 := by
    have := roundHalfEvenNat_le (100 * q.num.natAbs) q.den 1000 hb (by omega)
    omega
  simp only [formatF2]
  rw [if_neg (by omega : ¬ q.num < 0)]
  rw [string_length_append, string_length_append, string_length_append]
  have hd := natDigits_length_le_two (roundHalfEvenNat (100 * q.num.natAbs) q.den / 100)
    (by omega)
  have hp := pad2_length_le_two (roundHalfEvenNat (100 * q.num.natAbs) q.den % 100)
    (by omega)
  have h0' : ("" : String).length = 0 := rfl
  have h1 : ("." : String).length = 1 := rfl
  omega

theorem relevance_length_le (p : ArxivPaper) (hs : scoreInRange p = true) :
    (_relevance_string p).length ≤ 1024 := by
  cases h : p.score with
  | none => simp [_relevance_string, h]; decide
  | some q =>
      unfold scoreInRange at hs
      rw [h] at hs
      rw [Bool.and_eq_true, decide_eq_true_iff, decide_eq_true_iff] at hs
      simp only [_relevance_string, h]
      rw [string_length_append]
      have := formatF2_length_le q hs.1 hs.2
      have h3 : ("/10" : String).length = 3 := rfl
      omega

/-- C2 counterexample: the claim quantifies over every integer limit,
but at T = "ab", L = -1 the code returns "a" (Python negative slicing
drops the last character), not the first L characters of T (the empty
string). -/
theorem truncate_small_limit_cex :
    (-1 : Int) ≤ 3 ∧ _truncate "ab" (-1) = "a" ∧ firstChars "ab" (-1) = "" ∧
      _truncate "ab" (-1) ≠ firstChars "ab" (-1) := by decide

/-- C2 (amended): for every string T and integer limit L, if
len(T) <= L then truncate returns T unchanged; if len(T) > L and L > 3
the result has length <= L, ends with "..." and its non-ellipsis part
is the first L-3 characters of T; for 0 <= L <= 3 the result is the
first L characters of T verbatim; and for L < 0 the result is T with
its last min(|L|, len(T)) characters removed (Python negative
slicing). -/
theorem truncate_spec (t : String) (l : Int) :
    ((t.length : Int) ≤ l → _truncate t l = t)
    ∧ (l < (t.length : Int) → 3 < l →
        ((_truncate t l).length : Int) ≤ l
        ∧ strEndsWith (_truncate t l) "..."
        ∧ _truncate t l = firstChars t (l - 3) ++ "...")
    ∧ (0 ≤ l → l ≤ 3 → _truncate t l = firstChars t l)
    ∧ (l < 0 → _truncate t l = String.mk (t.data.take (t.length - l.natAbs))) := by
  refine ⟨fun h => truncate_of_le t l h, fun h1 h2 => ?_, fun h0 h3 => ?_, fun hneg => ?_⟩
  · refine ⟨truncate_length_le t l (by omega), ?_, ?_⟩
    · rw [truncate_of_cut t l h1 h2]
      exact ⟨pySlice t (l - 3), rfl⟩
    · rw [truncate_of_cut t l h1 h2, pySlice_nonneg t (l - 3) (by omega)]
      rfl
  · by_cases hle : (t.length : Int) ≤ l
    · rw [truncate_of_le t l hle]
      unfold firstChars
      rw [List.take_of_length_le (by rw [← string_length_data]; omega)]
    · push_neg at hle
      rw [truncate_of_small t l hle h3, pySlice_nonneg t l h0]
      rfl
  · have hlt : l < (t.length : Int) := by
      have : (0 : Int) ≤ (t.length : Int) := Int.ofNat_nonneg t.length
      omega
    rw [truncate_of_small t l hlt (by omega)]
    unfold pySlice
    rw [if_neg (by omega : ¬ (0 : Int) ≤ l)]
    have harg : ((t.length : Int) + l).toNat = t.length - l.natAbs := by omega
    rw [harg]

/-- C2 witness: each branch of the amended truncation contract at a
concrete input. -/
theorem truncate_spec_witness :
    _truncate "hi" 5 = "hi"
    ∧ _truncate "abcdefgh" 6 = firstChars "abcdefgh" 3 ++ "..."
    ∧ _truncate "abcdefgh" 2 = firstChars "abcdefgh" 2 :=
  ⟨(truncate_spec "hi" 5).1 (by decide),
   ((truncate_spec "abcdefgh" 6).2.1 (by decide) (by decide)).2.2,
   (truncate_spec "abcdefgh" 2).2.2.1 (by decide) (by decide)⟩

/-- C6 counterexample: at T = "hello", L = 2 cutting occurs
(len(T) > L) yet the result "he" carries no trailing ellipsis, because
limits <= 3 hard-cut without a marker. -/
theorem truncate_ellipsis_cex :
    (2 : Int) < (("hello" : String).length : Int)
    ∧ ¬ strEndsWith (_truncate "hello" 2) "..." := by
  constructor
  · decide
  · have he : _truncate "hello" 2 = "he" := by decide
    rw [he]
    rintro ⟨p, hp⟩
    have hlen := congrArg String.length hp
    rw [string_length_append] at hlen
    have h2 : ("he" : String).length = 2 := rfl
    have h3 : ("..." : String).length = 3 := rfl
    omega

/-- C6 (amended): whenever cutting occurs with a limit greater than 3,
the truncated result ends with the "..." marker; for limits <= 3 the
code hard-cuts with no marker. -/
theorem truncate_trailing_ellipsis (t : String) (l : Int)
    (h1 : l < (t.length : Int)) (h2 : 3 < l) :
    strEndsWith (_truncate t l) "..." := by
  rw [truncate_of_cut t l h1 h2]
  exact ⟨pySlice t (l - 3), rfl⟩

/-- C6 witness: the ellipsis marker at a concrete cut. -/
theorem truncate_trailing_ellipsis_witness :
    strEndsWith (_truncate "abcdefgh" 6) "..." :=
  truncate_trailing_ellipsis "abcdefgh" 6 (by decide) (by decide)

/-- C8: the Relevance value is "Not ranked" exactly when the score is
absent, and the score formatted as two-decimals-out-of-ten when
present; a score of 7.256 renders as "7.26/10". -/
theorem relevance_spec (p : ArxivPaper) :
    (p.score = none → _relevance_string p = "Not ranked")
    ∧ (∀ q : ℚ, p.score = some q → _relevance_string p = formatF2 q ++ "/10")
    ∧ (p.score = some (mkRat 7256 1000) → _relevance_string p = "7.26/10") := by
  refine ⟨fun h => ?_, fun q h => ?_, fun h => ?_⟩
  · simp [_relevance_string, h]
  · simp [_relevance_string, h]
  · simp only [_relevance_string, h]
    decide

/-- C8 witness: the score-absent and score-7.256 cases on concrete
records. -/
theorem relevance_spec_witness :
    _relevance_string basePaper = "Not ranked"
    ∧ _relevance_string scored726Paper = "7.26/10" :=
  ⟨(relevance_spec basePaper).1 rfl,
   (relevance_spec scored726Paper).2.2 rfl⟩

/-- C9: with an empty destination URL the call is a no-op: no POST is
attempted (the trace of request bodies is empty) and nothing is
logged. -/
theorem empty_url_noop (papers : List ArxivPaper) (net : Nat → Outcome) :
    notify_discord papers "" net = ([], []) :=
  notify_discord_empty_url papers net

/-- C5: with a non-empty URL and no papers, exactly one POST is issued
and its body is the fixed empty-state notice together with the
mention-suppression directive. -/
theorem empty_papers_single_post (url : String) (net : Nat → Outcome) (h : url ≠ "") :
    (notify_discord [] url net).1 =
      [⟨[], Payload.content "No new arXiv papers today.\nSee you tomorrow!"⟩] := by
  rw [notify_discord_no_papers url net h, runPosts_fst]
  rfl

/-- C5 witness: the empty-state POST at a concrete URL. -/
theorem empty_papers_single_post_witness :
    (notify_discord [] "https://example.test/webhook" netOk).1 =
      [⟨[], Payload.content "No new arXiv papers today.\nSee you tomorrow!"⟩] :=
  empty_papers_single_post "https://example.test/webhook" netOk (by decide)

/-- C3: with a non-empty URL and non-empty paper list, the POSTs are
exactly one per batch: the bodies are the consecutive chunks of at most
10 embeds in order, their count is ceil(n/10) = (n+9)/10, the chunks
concatenate back to the embed list built from the papers in input
order, and 23 papers give batch sizes [10, 10, 3]. -/
theorem batching_spec (papers : List ArxivPaper) (url : String) (net : Nat → Outcome)
    (h : url ≠ "") (hp : papers ≠ []) :
    (notify_discord papers url net).1 =
      (_batched (papers.map _paper_to_embed) 10).map
        (fun c => (⟨[], Payload.embeds c⟩ : RequestBody))
    ∧ (notify_discord papers url net).1.length = (papers.length + 9) / 10
    ∧ (∀ c ∈ _batched (papers.map _paper_to_embed) 10, c.length ≤ 10)
    ∧ (_batched (papers.map _paper_to_embed) 10).flatten = papers.map _paper_to_embed
    ∧ (papers.length = 23 →
        (notify_discord papers url net).1.map batchSize = [10, 10, 3]) := by
  have h1 : (notify_discord papers url net).1 =
      (_batched (papers.map _paper_to_embed) 10).map
        (fun c => (⟨[], Payload.embeds c⟩ : RequestBody)) := by
    rw [notify_discord_batches papers url net h hp, runPosts_fst, List.map_map]
    rfl
  refine ⟨h1, ?_, _batched_sizes _ 10 (by decide), _batched_join _ 10 (by decide), ?_⟩
  · rw [h1, List.length_map, _batched_length_ten, List.length_map]
  · intro h23
    rw [h1, List.map_map]
    have hcomp : (batchSize ∘ fun c => (⟨[], Payload.embeds c⟩ : RequestBody)) =
        List.length := by
      funext c
      rfl
    rw [hcomp]
    exact _batched_map_length_23 (papers.map _paper_to_embed)
      (by rw [List.length_map]; exact h23)

/-- C3 witness: 23 concrete papers produce exactly the batch sizes
[10, 10, 3]. -/
theorem batching_spec_witness :
    (notify_discord (List.replicate 23 basePaper) "https://example.test/hook" netOk).1.map
      batchSize = [10, 10, 3] := by
  have h := batching_spec (List.replicate 23 basePaper) "https://example.test/hook" netOk
    (by decide) (by decide)
  exact h.2.2.2.2 (by decide)

/-- C4: the function is total (it returns a trace, never an exception):
the list of attempted POST bodies is the full batch list, independent
of the network oracle, so a transport failure or an HTTP error on one
batch never suppresses a later batch and no body is ever attempted
twice (no retry); the log is exactly one warning per failing batch as
produced by `warningsOf`. -/
theorem best_effort_delivery (papers : List ArxivPaper) (url : String)
    (net : Nat → Outcome) (h : url ≠ "") (hp : papers ≠ []) :
    (notify_discord papers url net).1 =
      (_batched (papers.map _paper_to_embed) 10).map
        (fun c => (⟨[], Payload.embeds c⟩ : RequestBody))
    ∧ (notify_discord papers url net).2 =
      ((List.range (_batched (papers.map _paper_to_embed) 10).length).map
        (fun i => warningsOf (net i))).flatten := by
  constructor
  · rw [notify_discord_batches papers url net h hp, runPosts_fst, List.map_map]
    rfl
  · rw [notify_discord_batches papers url net h hp, runPosts_snd, List.length_map]
    congr 1
    apply List.map_congr_left
    intro j _
    rw [Nat.zero_add]

/-- C4 witness: with 23 papers (3 batches) and a transport exception on
the second POST, all 3 batches are still attempted and exactly one
warning is logged. -/
theorem best_effort_delivery_witness :
    (notify_discord (List.replicate 23 basePaper) "https://example.test/hook2"
      netFailSecond).1.length = 3
    ∧ (notify_discord (List.replicate 23 basePaper) "https://example.test/hook2"
      netFailSecond).2 = ["Failed to reach Discord webhook: boom"] := by
  have h := best_effort_delivery (List.replicate 23 basePaper)
    "https://example.test/hook2" netFailSecond (by decide) (by decide)
  constructor
  · rw [h.1]
    decide
  · rw [h.2]
    decide

/-- C7 counterexample: a record with the single affiliation "" has a
non-empty affiliation sequence, yet the embed carries only the 3 base
fields, because the code tests the truthiness of the built string, not
of the sequence. -/
theorem affiliations_field_cex :
    singleAffPaper.affiliations ≠ []
    ∧ (_paper_to_embed singleAffPaper).fields.map (fun f => f.name) =
        ["Authors", "Relevance", "Links"]
    ∧ (_paper_to_embed singleAffPaper).fields.length = 3 := by
  decide

/-- C7 (amended): with no affiliations the embed has only the 3 base
fields; with affiliations present, the non-inline "Affiliations" field
holding the first 5 entries comma-joined (plus a ", ..." marker beyond
5), truncated to 1024, is appended fourth whenever that built value is
non-empty, and omitted when the built value is empty. -/
theorem affiliations_field_spec (p : ArxivPaper) :
    (p.affiliations = [] →
      (_paper_to_embed p).fields.map (fun f => f.name) =
        ["Authors", "Relevance", "Links"])
    ∧ (p.affiliations ≠ [] → affValue p ≠ "" →
        (_paper_to_embed p).fields =
          baseFields p ++ [⟨"Affiliations", affValue p, false⟩])
    ∧ (p.affiliations ≠ [] → affValue p = "" →
        (_paper_to_embed p).fields.map (fun f => f.name) =
          ["Authors", "Relevance", "Links"])
    ∧ (affValue p).length ≤ 1024 := by
  refine ⟨fun h => ?_, fun h hne => ?_, fun h heq => ?_, ?_⟩
  · rw [paper_to_embed_fields, affiliations_block_eq, if_pos h]
    simp [baseFields]
  · rw [paper_to_embed_fields, affiliations_block_eq, if_neg h]
    simp [hne]
  · rw [paper_to_embed_fields, affiliations_block_eq, if_neg h]
    simp [heq, baseFields]
  · exact truncate_length_le_nat _ 1024

/-- C7 witness: no affiliations gives 3 fields; 7 affiliations append
the "Affiliations" field with the first five entries and the ", ..."
marker. -/
theorem affiliations_field_spec_witness :
    (_paper_to_embed basePaper).fields.map (fun f => f.name) =
      ["Authors", "Relevance", "Links"]
    ∧ (_paper_to_embed sevenAffPaper).fields =
        baseFields sevenAffPaper ++ [⟨"Affiliations", affValue sevenAffPaper, false⟩]
    ∧ affValue sevenAffPaper = "a1, a2, a3, a4, a5, ..." :=
  ⟨(affiliations_field_spec basePaper).1 rfl,
   (affiliations_field_spec sevenAffPaper).2.1 (by decide) (by decide),
   by decide⟩

/-- C10: the "Affiliations" field is present (a 4th field exists) iff
the affiliation sequence is non-empty AND the built string is
non-empty; in particular a non-empty sequence whose first five entries
join to the empty string yields an embed with exactly 3 fields. -/
theorem affiliations_truthiness (p : ArxivPaper) :
    ((_paper_to_embed p).fields.length = 4 ↔
      (p.affiliations ≠ [] ∧ affValue p ≠ ""))
    ∧ (p.affiliations ≠ [] → joinSep ", " (p.affiliations.take 5) = "" →
        (_paper_to_embed p).fields.length = 3) := by
  constructor
  · rw [paper_to_embed_fields, affiliations_block_eq]
    by_cases h : p.affiliations = []
    · rw [if_pos h]
      simp [h, baseFields]
    · rw [if_neg h]
      by_cases ha : affValue p = ""
      · simp [ha, h, baseFields]
      · simp [ha, h, baseFields]
  · intro hne hjoin
    cases haff : p.affiliations with
    | nil => exact absurd haff hne
    | cons a as =>
        cases as with
        | nil =>
            have ha : a = "" := by
              rw [haff] at hjoin
              simpa [joinSep] using hjoin
            have hval : affValue p = "" := by
              unfold affValue
              rw [haff, ha]
              decide
            rw [paper_to_embed_fields, affiliations_block_eq, if_neg hne]
            simp [hval, baseFields]
        | cons b bs =>
            exfalso
            rw [haff] at hjoin
            rw [show (a :: b :: bs).take 5 = a :: b :: bs.take 3 from rfl] at hjoin
            exact joinSep_comma_ne_empty a b (bs.take 3) hjoin

/-- C10 witness: the single-empty-affiliation record yields exactly 3
fields. -/
theorem affiliations_truthiness_witness :
    (_paper_to_embed singleAffPaper).fields.length = 3 :=
  (affiliations_truthiness singleAffPaper).2 (by decide) (by decide)

set_option maxRecDepth 100000 in
/-- C1 counterexample: with an 1100-character PDF URL, the "Links"
field value exceeds 1024 characters, because `_link_block` applies no
truncation; the other base fields stay within bounds. -/
theorem embed_limits_cex :
    (_paper_to_embed longUrlPaper).fields.map
      (fun f => (f.name, decide (1024 < f.value.length))) =
      [("Authors", false), ("Relevance", false), ("Links", true)] := by
  decide

/-- C1 (amended): the title is at most 256 characters, the description
at most 2048, and every field value other than "Links" at most 1024
(for the Relevance field under the documented 0-10 score range); the
"Links" value is never truncated and can exceed 1024. -/
theorem embed_limits (p : ArxivPaper) (hs : scoreInRange p = true) :
    (_paper_to_embed p).title.length ≤ 256
    ∧ (_paper_to_embed p).description.length ≤ 2048
    ∧ (∀ f ∈ (_paper_to_embed p).fields, f.name ≠ "Links" → f.value.length ≤ 1024) := by
  refine ⟨?_, ?_, ?_⟩
  · rw [paper_to_embed_title]
    exact truncate_length_le_nat _ 256
  · rw [paper_to_embed_description]
    exact truncate_length_le_nat _ 2048
  · intro f hf hname
    rw [paper_to_embed_fields] at hf
    rcases List.mem_append.mp hf with hbase | hextra
    · simp only [baseFields, List.mem_cons, List.not_mem_nil, or_false] at hbase
      rcases hbase with rfl | rfl | rfl
      · exact truncate_length_le_nat _ 1024
      · exact relevance_length_le p hs
      · exact absurd rfl hname
    · rcases hm : _affiliations_block p with _ | a
      · rw [hm] at hextra
        simp at hextra
      · rw [hm] at hextra
        have hextra2 : f ∈ (if a = "" then ([] : List EmbedField)
            else [⟨"Affiliations", a, false⟩]) := hextra
        by_cases ha : a = ""
        · rw [if_pos ha] at hextra2
          simp at hextra2
        · rw [if_neg ha] at hextra2
          simp only [List.mem_cons, List.not_mem_nil, or_false] at hextra2
          subst hextra2
          have haval : a = affValue p := by
            rw [affiliations_block_eq] at hm
            by_cases he : p.affiliations = []
            · rw [if_pos he] at hm
              exact absurd hm (by simp)
            · rw [if_neg he] at hm
              exact (Option.some_injective _ hm).symm
          show a.length ≤ 1024
          rw [haval]
          exact truncate_length_le_nat _ 1024

/-- C1 witness: the in-range-scored record's title, description and
Relevance value respect their ceilings. -/
theorem embed_limits_witness :
    (_paper_to_embed scoredPaper).title.length ≤ 256
    ∧ (_paper_to_embed scoredPaper).description.length ≤ 2048
    ∧ (_relevance_string scoredPaper).length ≤ 1024 := by
  have h := embed_limits scoredPaper (by decide)
  exact ⟨h.1, h.2.1,
    h.2.2 ⟨"Relevance", _relevance_string scoredPaper, true⟩ (by decide) (by decide)⟩
